import Mathlib

/-!
Verification of the tlpipe core: the antenna beam models of
`tlpipe/core/tl_array.py` and the visibility flagging / noise-source
interpolation block of `tlpipe/plot/plot_waterfall.py` (`Plot.plot`,
lines 124-141), embedded shallowly in Lean.

Machine floats in the source are modelled by real numbers; the IEEE NaN
sentinel written by the noise-flag branch is modelled by `Option ℝ`
(`none` = NaN).
-/

open scoped Classical

noncomputable section BeamModels

/-- Modelled from the spec: the source does `import constants as const` and
uses `const.c`; the `constants` module is not under src/.  The spec fixes it
as the speed of light in m/s ("wavelength λ = c / (f·1e9) meters", and the
scenario λ ≈ 0.4 m at 750 MHz), so we take the SI value. -/
def constC : ℝ := 299792458

/-- Normalized sinc, as `np.sinc`: sin(πx)/(πx) with value 1 at x = 0. -/
def npSinc (x : ℝ) : ℝ :=
  if x = 0 then 1 else Real.sin (Real.pi * x) / (Real.pi * x)

namespace DsihBeam

/-- Wavelength per configured frequency (MHz), as computed in
`DsihBeam.__init__`: `freqs = 1.0e-3 * np.array([freqs])` (GHz) followed by
`lmbda = const.c / (1.0e9 * freqs)` (m). -/
def lmbda (freq : ℝ) : ℝ := constC / (1.0e9 * (1.0e-3 * freq))

/-- `xwidth = 1.22 * lmbda / diameter` from `DsihBeam.__init__`. -/
def xwidth (freq diameter : ℝ) : ℝ := 1.22 * lmbda freq / diameter

/-- `ywidth = xwidth` from `DsihBeam.__init__`. -/
def ywidth (freq diameter : ℝ) : ℝ := xwidth freq diameter

end DsihBeam

namespace CylinderBeam

/-- Wavelength per configured frequency (MHz), as computed in
`CylinderBeam.response`: `freqs` was stored in GHz by `__init__`
(`freqs = 1.0e-3 * np.array([freqs])`) and `response` evaluates
`lmbda = const.c / (1.0e9 * self.freqs)`. -/
def lmbda (freq : ℝ) : ℝ := constC / (1.0e9 * (1.0e-3 * freq))

/-- The constant `factor = 1.0e-60` of `CylinderBeam.response`. -/
def factor : ℝ := 1.0e-60

/-- `CylinderBeam.response` for one direction vector `(x, y, z)` and one
configured frequency `freq` (MHz).  Follows the source line by line:
`nz = np.dot(vec_n, vec_z)`, `nu = np.dot(vec_n, vec_u)`,
`nv = np.dot(vec_n, vec_v)`, `nz = np.where(nz<=0.0, 0.0, nz)`, and the
return value `np.sinc(width * nu / lmbda) * np.sinc(factor * nv / lmbda) * nz`.
The stored `self.length` is never read by `response`. -/
def response (width freq x y z : ℝ) : ℝ :=
  let nz := x * 0 + y * 0 + z * 1
  let nu := x * 1 + y * 0 + z * 0
  let nv := x * 0 + y * 1 + z * 0
  let nzm := if nz ≤ 0 then 0 else nz
  npSinc (width * nu / lmbda freq) * npSinc (factor * nv / lmbda freq) * nzm

end CylinderBeam

end BeamModels

section BeamLemmas

lemma cylinder_lmbda_eq (f : ℝ) :
    CylinderBeam.lmbda f = constC / (1.0e6 * f) := by
  unfold CylinderBeam.lmbda
  norm_num
  ring_nf

lemma abs_npSinc_le_one (x : ℝ) : |npSinc x| ≤ 1 := by
  unfold npSinc
  split_ifs with h
  · simp
  · rw [abs_div]
    apply div_le_one_of_le₀ Real.abs_sin_le_abs (abs_nonneg _)

end BeamLemmas

/-- C1: for every direction `(x, y, z)` and frequency `f` (MHz),
`CylinderBeam.response` equals `sinc(width·x/λ) · sinc(1e-60·y/λ) · nz'`
with `λ = c / (f in Hz)` and `nz' = z` for `z > 0`, `0` for `z ≤ 0`; in
particular the response is exactly `0` whenever `z ≤ 0`. -/
theorem cylinder_response_formula (width f x y z : ℝ) :
    (CylinderBeam.response width f x y z =
      npSinc (width * x / (constC / (1.0e6 * f))) *
        npSinc (1.0e-60 * y / (constC / (1.0e6 * f))) *
        (if 0 < z then z else 0)) ∧
    (z ≤ 0 → CylinderBeam.response width f x y z = 0) := by
  have hz : x * 0 + y * 0 + z * 1 = z := by ring
  have hu : x * 1 + y * 0 + z * 0 = x := by ring
  have hv : x * 0 + y * 1 + z * 0 = y := by ring
  constructor
  · simp only [CylinderBeam.response, CylinderBeam.factor, hz, hu, hv,
      cylinder_lmbda_eq]
    rcases le_or_lt z 0 with h | h
    · rw [if_pos h, if_neg (not_lt.mpr h)]
    · rw [if_neg (not_le.mpr h), if_pos h]
  · intro hzle
    simp only [CylinderBeam.response, hz, hu, hv]
    rw [if_pos hzle]
    norm_num

/-- Witness for C1 at the concrete below-horizon direction
`(0.3, 0.4, -0.5)` with `width = 15`, `f = 750`. -/
theorem cylinder_response_formula_witness :
    ((-0.5 : ℝ) ≤ 0) ∧ CylinderBeam.response 15 750 0.3 0.4 (-0.5) = 0 :=
  ⟨by norm_num, (cylinder_response_formula 15 750 0.3 0.4 (-0.5)).2 (by norm_num)⟩

/-- C8: `DsihBeam` construction uses `w = 1.22 · λ / diameter` identically on
both angular axes, and for the scenario frequency 750 MHz with diameter 6.0 m
the wavelength is ≈ 0.4 m and the half-width ≈ 0.0813 rad. -/
theorem dsih_beam_widths :
    (∀ f d : ℝ, DsihBeam.ywidth f d = DsihBeam.xwidth f d) ∧
    (∀ f d : ℝ, DsihBeam.xwidth f d = 1.22 * (constC / (1.0e9 * (1.0e-3 * f))) / d) ∧
    |DsihBeam.lmbda 750 - 0.4| < 1.0e-3 ∧
    |DsihBeam.xwidth 750 6.0 - 0.0813| < 1.0e-4 := by
  refine ⟨fun f d => rfl, fun f d => rfl, ?_, ?_⟩
  · rw [abs_lt]
    unfold DsihBeam.lmbda constC
    norm_num
  · rw [abs_lt]
    unfold DsihBeam.xwidth DsihBeam.lmbda constC
    norm_num

/-- C9: for every unit direction vector, the magnitude of
`CylinderBeam.response` is at most 1 at every frequency. -/
theorem cylinder_response_abs_le_one (width f x y z : ℝ)
    (h : x ^ 2 + y ^ 2 + z ^ 2 = 1) :
    |CylinderBeam.response width f x y z| ≤ 1 := by
  have hz : x * 0 + y * 0 + z * 1 = z := by ring
  simp only [CylinderBeam.response, hz]
  rw [abs_mul, abs_mul]
  have hm : |if z ≤ (0 : ℝ) then (0 : ℝ) else z| ≤ 1 := by
    split_ifs with hle
    · norm_num
    · rw [abs_of_pos (not_le.mp hle)]
      nlinarith [sq_nonneg x, sq_nonneg y]
  calc |npSinc _| * |npSinc _| * |if z ≤ (0 : ℝ) then (0 : ℝ) else z|
      ≤ 1 * 1 * 1 := by
        gcongr <;> exact abs_npSinc_le_one _
    _ = 1 := by norm_num

/-- Witness for C9 at the zenith direction `(0, 0, 1)` with `width = 15`,
`f = 750`. -/
theorem cylinder_response_abs_le_one_witness :
    ((0 : ℝ) ^ 2 + 0 ^ 2 + 1 ^ 2 = 1) ∧
      |CylinderBeam.response 15 750 0 0 1| ≤ 1 :=
  ⟨by norm_num, cylinder_response_abs_le_one 15 750 0 0 1 (by norm_num)⟩

/-!
Visibility conditioning: shallow embedding of the flagging block of
`Plot.plot` (`plot_waterfall.py`, lines 124-141).

The visibility array is a time-major list of rows (one row per time index,
one entry per frequency channel).  A sample's real and imaginary parts are
`Option ℝ`, with `none` standing for the IEEE NaN the source writes via
`complex(np.nan, np.nan)`.  The external scipy routine
`InterpolatedUnivariateSpline` is not repository code: the value it computes
is kept abstract as a parameter `itp` (a deterministic function of the knot
indices and the data), while its documented arity requirement for the
default degree k = 3 (strictly more than k data points, else it raises) is
made explicit in `mkSpline`.
-/

/-- One visibility sample: real and imaginary part, `none` = NaN. -/
structure CSample where
  re : Option ℝ
  im : Option ℝ

/-- The `complex(np.nan, np.nan)` sentinel written by the noise-flag branch. -/
def nanSample : CSample := ⟨none, none⟩

/-- Visibility array: rows indexed by time, entries indexed by frequency. -/
abbrev Vis := List (List CSample)

/-- Boolean flag mask of the same shape as the visibility array. -/
abbrev Mask := List (List Bool)

/-- Type of the abstract 1-D interpolant: knot positions, knot data, and the
evaluation point (a time index). -/
abbrev Itp := List ℕ → List (Option ℝ) → ℕ → Option ℝ

/-- Error signalled when the spline constructor has too few data points
(the spec's `InsufficientSamples`). -/
inductive CondError where
  | insufficientSamples
deriving DecidableEq

/-- Result of the conditioning block: `vis1` is either a plain array or the
masked array `np.ma.array(vis, mask=vis_mask)` built in mask mode. -/
inductive CondOut where
  | plain (vis1 : Vis)
  | maskedArr (vis1 : Vis) (mask : Mask)

/-- `on = np.where(ts[ns_on][:])[0]`: time indices with the indicator true. -/
def onIndices (ns : List Bool) : List ℕ :=
  (List.range ns.length).filter fun t => ns.getD t false

/-- `off = np.where(np.logical_not(ts[ns_on][:]))[0]`: time indices with the
indicator false. -/
def offIndices (ns : List Bool) : List ℕ :=
  (List.range ns.length).filter fun t => !ns.getD t false

/-- Element access `vis[t, fi]` (always in bounds in the source's
rectangular arrays; the default is arbitrary). -/
def getEntry (vis : Vis) (t fi : ℕ) : CSample :=
  (vis.getD t []).getD fi ⟨some 0, some 0⟩

/-- Number of frequency channels `vis1.shape[1]`. -/
def nchans (vis : Vis) : ℕ := (vis.headD []).length

/-- Construction of `InterpolatedUnivariateSpline(xs, ys)` with the default
degree k = 3: the external routine requires more than k data points and
raises otherwise; the value it would compute is the abstract `itp xs ys`. -/
def mkSpline (itp : Itp) (xs : List ℕ) (ys : List (Option ℝ)) :
    Except CondError (ℕ → Option ℝ) :=
  if 3 < xs.length then .ok (itp xs ys) else .error .insufficientSamples

/-- The per-channel loop header of the interpolation branch: for each
frequency channel `fi` in `xrange(vis1.shape[1])`, build
`itp_real = InterpolatedUnivariateSpline(off, vis1[off, fi].real)` and
`itp_imag = InterpolatedUnivariateSpline(off, vis1[off, fi].imag)`.
Reading the column at the off rows from the original array is equivalent to
reading it from the partially updated `vis1`, because only on rows are ever
written. -/
def splineList (itp : Itp) (ns : List Bool) (vis : Vis) :
    Except CondError (List ((ℕ → Option ℝ) × (ℕ → Option ℝ))) :=
  (List.range (nchans vis)).mapM fun fi => do
    let fRe ← mkSpline itp (offIndices ns)
      ((offIndices ns).map fun s => (getEntry vis s fi).re)
    let fIm ← mkSpline itp (offIndices ns)
      ((offIndices ns).map fun s => (getEntry vis s fi).im)
    pure (fRe, fIm)

/-- The interpolation branch (`else:` of `if not interpolate_ns`): build the
per-channel interpolants, then perform the writes
`vis1[on, fi] = itp_real(on) + 1.0J * itp_imag(on)` — every sample whose
time index has the indicator true gets, in channel `fi`, the value of
channel `fi`'s interpolants at that time index; all other rows keep their
samples. -/
def interpVis (itp : Itp) (ns : List Bool) (vis : Vis) :
    Except CondError Vis := do
  let splines ← splineList itp ns vis
  pure <| vis.mapIdx fun t row =>
    if ns.getD t false then
      row.mapIdx fun fi _ =>
        let p := splines.getD fi (fun _ => none, fun _ => none)
        ⟨p.1 t, p.2 t⟩
    else row

/-- The plain noise-flag branch (`if not interpolate_ns`):
`vis1 = vis.copy(); vis1[on] = complex(np.nan, np.nan)` sets every sample of
every row whose time index is in `on` to NaN. -/
def flagOnRows (ns : List Bool) (vis : Vis) : Vis :=
  vis.mapIdx fun t row =>
    if ns.getD t false then row.map fun _ => nanSample else row

/-- The conditioning block of `Plot.plot` (lines 124-141), as a function of
the parameters `flag_mask`, `flag_ns`, `interpolate_ns`, the arrays, and the
optional `ns_on` dataset (`none` when `ns_on` is not among the input data's
keys). -/
def condition (itp : Itp) (flagMask flagNs interpNs : Bool)
    (vis : Vis) (visMask : Mask) (nsOn : Option (List Bool)) :
    Except CondError CondOut :=
  if flagMask then .ok (.maskedArr vis visMask)
  else if flagNs then
    match nsOn with
    | some ns =>
      if !interpNs then .ok (.plain (flagOnRows ns vis))
      else (interpVis itp ns vis).map .plain
    | none => .ok (.plain vis)
  else .ok (.plain vis)

/-- State-passing rendering of the same block, tracking the buffers backing
the inputs `vis` and `vis_mask` through each branch.  A numpy element
assignment mutates the buffer the name is bound to: in the noise-flag
branches `vis1 = vis.copy()` binds a fresh buffer, so the writes
`vis1[on] = ...` and `vis1[on, fi] = ...` never reach `vis`; in the mask
branch `np.ma.array(vis, mask=vis_mask)` wraps the input buffers but is
never written; in the remaining branches `vis1` aliases `vis` and no write
occurs.  The returned triple is (result, vis buffer after, mask buffer
after). -/
def conditionTrace (itp : Itp) (flagMask flagNs interpNs : Bool)
    (vis : Vis) (visMask : Mask) (nsOn : Option (List Bool)) :
    Except CondError (CondOut × Vis × Mask) :=
  if flagMask then .ok (.maskedArr vis visMask, vis, visMask)
  else if flagNs then
    match nsOn with
    | some ns =>
      if !interpNs then .ok (.plain (flagOnRows ns vis), vis, visMask)
      else (interpVis itp ns vis).map fun v1 => (.plain v1, vis, visMask)
    | none => .ok (.plain vis, vis, visMask)
  else .ok (.plain vis, vis, visMask)

/-- A concrete instance of the abstract interpolant, used by the witnesses. -/
def itpZero : Itp := fun _ _ _ => some 0

/-- C2: in pass-through mode (neither mask-flagging nor noise-flagging
requested) `condition` returns the input visibility array itself, for every
array, mask, indicator, and interpolation flag. -/
theorem condition_pass_through_id (itp : Itp) (i : Bool) (vis : Vis)
    (m : Mask) (ns : Option (List Bool)) :
    condition itp false false i vis m ns = .ok (.plain vis) := rfl

/-- C10: when noise-flagging is requested but the input data has no `ns_on`
indicator, `condition` silently returns the input visibility array
unchanged, for every array, mask, and interpolation flag. -/
theorem condition_ns_without_indicator_id (itp : Itp) (i : Bool) (vis : Vis)
    (m : Mask) :
    condition itp false true i vis m none = .ok (.plain vis) := rfl

section ConditionLemmas

/-- getD of a `mapIdx` at an in-range index. -/
lemma getD_mapIdx {α β : Type} (l : List α) (f : ℕ → α → β) (t : ℕ)
    (ht : t < l.length) (d : β) (dd : α) :
    (l.mapIdx f).getD t d = f t (l.getD t dd) := by
  simp [List.getD_eq_getElem?_getD, List.getElem?_mapIdx,
    List.getElem?_eq_getElem ht]

/-- getD of a `map` at an in-range index. -/
lemma getD_map {α β : Type} (l : List α) (g : α → β) (i : ℕ)
    (hi : i < l.length) (d : β) (dd : α) :
    (l.map g).getD i d = g (l.getD i dd) := by
  simp [List.getD_eq_getElem?_getD, List.getElem?_map,
    List.getElem?_eq_getElem hi]

/-- getD of a mapped range at an in-range index. -/
lemma getD_range_map {β : Type} (n : ℕ) (g : ℕ → β) (i : ℕ) (hi : i < n)
    (d : β) :
    ((List.range n).map g).getD i d = g i := by
  simp [List.getD_eq_getElem?_getD, List.getElem?_map,
    List.getElem?_range hi]

/-- getD past the end of the list is the default. -/
lemma getD_of_length_le {α : Type} (l : List α) (i : ℕ) (h : l.length ≤ i)
    (d : α) :
    l.getD i d = d := by
  simp [List.getD_eq_getElem?_getD, List.getElem?_eq_none h]

/-- getD at an in-range index is the element. -/
lemma getD_eq_elem {α : Type} (l : List α) (i : ℕ) (h : i < l.length)
    (d : α) :
    l.getD i d = l[i] := by
  simp [List.getD_eq_getElem?_getD, List.getElem?_eq_getElem h]

/-- Two lists are equal when they have the same length and the same getD
values at every in-range index. -/
lemma ext_getD {α : Type} (l₁ l₂ : List α) (d : α)
    (hl : l₁.length = l₂.length)
    (h : ∀ i, i < l₁.length → l₁.getD i d = l₂.getD i d) : l₁ = l₂ := by
  apply List.ext_getElem hl
  intro i h1 h2
  rw [← getD_eq_elem l₁ i h1 d, ← getD_eq_elem l₂ i h2 d]
  exact h i h1

/-- A `mapM` over `Except` in which every element succeeds is the `map` of
the success values. -/
lemma mapM_ok_of {α β : Type} (l : List α) (f : α → Except CondError β)
    (g : α → β) (h : ∀ a ∈ l, f a = .ok (g a)) :
    l.mapM f = .ok (l.map g) := by
  induction l with
  | nil => rfl
  | cons a l ih =>
    rw [List.mapM_cons, h a (List.mem_cons_self a l),
      ih fun b hb => h b (List.mem_cons_of_mem a hb)]
    rfl

/-- The pair of interpolants the per-channel loop builds for channel `fi`. -/
def splinePair (itp : Itp) (ns : List Bool) (vis : Vis) (fi : ℕ) :
    (ℕ → Option ℝ) × (ℕ → Option ℝ) :=
  (itp (offIndices ns) ((offIndices ns).map fun s => (getEntry vis s fi).re),
   itp (offIndices ns) ((offIndices ns).map fun s => (getEntry vis s fi).im))

/-- The value `interpVis` returns when all spline constructions succeed. -/
def interpOut (itp : Itp) (ns : List Bool) (vis : Vis) : Vis :=
  vis.mapIdx fun t row =>
    if ns.getD t false then
      row.mapIdx fun fi _ =>
        let p := ((List.range (nchans vis)).map (splinePair itp ns vis)).getD
          fi (fun _ => none, fun _ => none)
        ⟨p.1 t, p.2 t⟩
    else row

lemma splineList_ok (itp : Itp) (ns : List Bool) (vis : Vis)
    (h : nchans vis = 0 ∨ 3 < (offIndices ns).length) :
    splineList itp ns vis =
      .ok ((List.range (nchans vis)).map (splinePair itp ns vis)) := by
  rcases h with h0 | h3
  · unfold splineList
    rw [h0]
    rfl
  · unfold splineList
    apply mapM_ok_of
    intro fi _
    simp only [mkSpline, if_pos h3]
    rfl

lemma splineList_err (itp : Itp) (ns : List Bool) (vis : Vis)
    (h1 : 0 < nchans vis) (h2 : (offIndices ns).length ≤ 3) :
    splineList itp ns vis = .error .insufficientSamples := by
  obtain ⟨n, hn⟩ : ∃ n, nchans vis = n + 1 := ⟨nchans vis - 1, by omega⟩
  unfold splineList
  rw [hn, List.range_succ_eq_map, List.mapM_cons]
  simp only [mkSpline, if_neg (not_lt.mpr h2)]
  rfl

lemma interpVis_ok (itp : Itp) (ns : List Bool) (vis : Vis)
    (h : nchans vis = 0 ∨ 3 < (offIndices ns).length) :
    interpVis itp ns vis = .ok (interpOut itp ns vis) := by
  unfold interpVis
  rw [splineList_ok itp ns vis h]
  rfl

lemma interpVis_err (itp : Itp) (ns : List Bool) (vis : Vis)
    (h1 : 0 < nchans vis) (h2 : (offIndices ns).length ≤ 3) :
    interpVis itp ns vis = .error .insufficientSamples := by
  unfold interpVis
  rw [splineList_err itp ns vis h1 h2]
  rfl

lemma interpVis_ok_inv (itp : Itp) (ns : List Bool) (vis out : Vis)
    (hok : interpVis itp ns vis = .ok out) :
    out = interpOut itp ns vis ∧
      (nchans vis = 0 ∨ 3 < (offIndices ns).length) := by
  by_cases hc : nchans vis = 0 ∨ 3 < (offIndices ns).length
  · rw [interpVis_ok itp ns vis hc] at hok
    exact ⟨(Except.ok.inj hok).symm, hc⟩
  · push_neg at hc
    rw [interpVis_err itp ns vis (Nat.pos_of_ne_zero hc.1)
      (by omega)] at hok
    exact absurd hok (by simp)

lemma interpOut_length (itp : Itp) (ns : List Bool) (vis : Vis) :
    (interpOut itp ns vis).length = vis.length := by
  simp [interpOut]

lemma interpOut_nchans (itp : Itp) (ns : List Bool) (vis : Vis) :
    nchans (interpOut itp ns vis) = nchans vis := by
  cases vis with
  | nil => rfl
  | cons r l =>
    unfold nchans interpOut
    rw [List.mapIdx_cons, List.headD_cons, List.headD_cons]
    cases h : ns.getD 0 false
    · rw [if_neg Bool.false_ne_true]
    · rw [if_pos rfl, List.length_mapIdx]

lemma interpOut_getD_off (itp : Itp) (ns : List Bool) (vis : Vis) (t : ℕ)
    (ht : t < vis.length) (h : ns.getD t false = false) :
    (interpOut itp ns vis).getD t [] = vis.getD t [] := by
  unfold interpOut
  rw [getD_mapIdx _ _ t ht _ [],
    if_neg (by rw [h]; exact Bool.false_ne_true)]

lemma interpOut_getD_on (itp : Itp) (ns : List Bool) (vis : Vis) (t : ℕ)
    (ht : t < vis.length) (h : ns.getD t false = true) :
    (interpOut itp ns vis).getD t [] =
      (vis.getD t []).mapIdx fun fi _ =>
        let p := ((List.range (nchans vis)).map (splinePair itp ns vis)).getD
          fi (fun _ => none, fun _ => none)
        ⟨p.1 t, p.2 t⟩ := by
  unfold interpOut
  rw [getD_mapIdx _ _ t ht _ [], if_pos h]

lemma interpOut_entry_off (itp : Itp) (ns : List Bool) (vis : Vis)
    (s fi : ℕ) (h : ns.getD s false = false) :
    getEntry (interpOut itp ns vis) s fi = getEntry vis s fi := by
  by_cases hs : s < vis.length
  · unfold getEntry
    rw [interpOut_getD_off itp ns vis s hs h]
  · unfold getEntry
    rw [getD_of_length_le _ _ (by rw [interpOut_length]; omega) [],
      getD_of_length_le _ _ (by omega) []]

lemma splinePair_interpOut (itp : Itp) (ns : List Bool) (vis : Vis)
    (fi : ℕ) :
    splinePair itp ns (interpOut itp ns vis) fi = splinePair itp ns vis fi := by
  unfold splinePair
  congr 1
  · apply congrArg
    apply List.map_congr_left
    intro s hs
    have hfalse : ns.getD s false = false := by
      have := (List.mem_filter.mp hs).2
      simpa using this
    rw [interpOut_entry_off itp ns vis s fi hfalse]
  · apply congrArg
    apply List.map_congr_left
    intro s hs
    have hfalse : ns.getD s false = false := by
      have := (List.mem_filter.mp hs).2
      simpa using this
    rw [interpOut_entry_off itp ns vis s fi hfalse]

lemma interpOut_idem (itp : Itp) (ns : List Bool) (vis : Vis) :
    interpOut itp ns (interpOut itp ns vis) = interpOut itp ns vis := by
  have hn : nchans (interpOut itp ns vis) = nchans vis :=
    interpOut_nchans itp ns vis
  have hsp : splinePair itp ns (interpOut itp ns vis) = splinePair itp ns vis :=
    funext fun fi => splinePair_interpOut itp ns vis fi
  apply ext_getD _ _ []
  · rw [interpOut_length, interpOut_length]
  · intro i hlen
    have h2 : i < (interpOut itp ns vis).length := by
      rw [interpOut_length] at hlen
      exact hlen
    have hi : i < vis.length := by
      have := h2
      rw [interpOut_length] at this
      exact this
    cases h : ns.getD i false with
    | false => rw [interpOut_getD_off itp ns (interpOut itp ns vis) i h2 h]
    | true =>
      rw [interpOut_getD_on itp ns (interpOut itp ns vis) i h2 h,
        interpOut_getD_on itp ns vis i hi h]
      simp only [hn, hsp, List.mapIdx_mapIdx]
      rfl

lemma interpVis_idem (itp : Itp) (ns : List Bool) (vis out : Vis)
    (hok : interpVis itp ns vis = .ok out) :
    interpVis itp ns out = .ok out := by
  obtain ⟨hout, hc⟩ := interpVis_ok_inv itp ns vis out hok
  subst hout
  have hc' : nchans (interpOut itp ns vis) = 0 ∨
      3 < (offIndices ns).length := by
    rcases hc with h0 | h3
    · exact Or.inl (by rw [interpOut_nchans]; exact h0)
    · exact Or.inr h3
  rw [interpVis_ok itp ns (interpOut itp ns vis) hc', interpOut_idem]

end ConditionLemmas

/-- C3: in noise-flag mode without interpolation, `condition` returns the
copy in which every sample of every time row with the indicator true is the
NaN sentinel in both parts, and every other sample equals the input. -/
theorem condition_noise_flag_nan (itp : Itp) (vis : Vis) (m : Mask)
    (ns : List Bool) :
    condition itp false true false vis m (some ns) =
        .ok (.plain (flagOnRows ns vis)) ∧
      ∀ t fi, t < vis.length → fi < (vis.getD t []).length →
        getEntry (flagOnRows ns vis) t fi =
          if ns.getD t false then nanSample else getEntry vis t fi := by
  refine ⟨rfl, fun t fi ht hfi => ?_⟩
  unfold getEntry flagOnRows
  rw [getD_mapIdx _ _ t ht _ []]
  cases h : ns.getD t false with
  | false => rw [if_neg Bool.false_ne_true, if_neg Bool.false_ne_true]
  | true =>
    rw [if_pos rfl, if_pos rfl, getD_map _ _ fi hfi _ ⟨some 0, some 0⟩]

/-- Witness for C3: a 1-time, 1-channel array with the indicator on; the
single sample becomes the NaN sentinel. -/
theorem condition_noise_flag_nan_witness :
    (0 < ([[(⟨some 1, some 2⟩ : CSample)]] : Vis).length) ∧
      getEntry (flagOnRows [true] [[⟨some 1, some 2⟩]]) 0 0 = nanSample := by
  refine ⟨by decide, ?_⟩
  rw [(condition_noise_flag_nan itpZero [[⟨some 1, some 2⟩]] [] [true]).2 0 0
    (by decide) (by decide)]
  rfl

/-- C5: in noise-flag mode with interpolation, when there is at least one
frequency channel and the off set has fewer points than the spline
constructor's minimum required count (more than its degree 3), `condition`
raises the insufficient-samples error instead of proceeding. -/
theorem condition_interp_insufficient (itp : Itp) (vis : Vis) (m : Mask)
    (ns : List Bool) (h1 : 0 < nchans vis)
    (h2 : (offIndices ns).length < 4) :
    condition itp false true true vis m (some ns) =
      .error .insufficientSamples := by
  show Except.map CondOut.plain (interpVis itp ns vis) =
    Except.error CondError.insufficientSamples
  rw [interpVis_err itp ns vis h1 (by omega)]
  rfl

/-- Witness for C5: one channel, one time sample, indicator on, so the off
set is empty. -/
theorem condition_interp_insufficient_witness :
    (0 < nchans [[(⟨some 1, some 2⟩ : CSample)]]) ∧
      ((offIndices [true]).length < 4) ∧
      condition itpZero false true true [[⟨some 1, some 2⟩]] [] (some [true]) =
        .error .insufficientSamples :=
  ⟨by decide, by decide,
    condition_interp_insufficient itpZero [[⟨some 1, some 2⟩]] [] [true]
      (by decide) (by decide)⟩

/-- C4: in noise-flag mode with interpolation, on a rectangular array whose
off set is large enough for the degree-3 spline, `condition` succeeds;
every time row with the indicator false is returned unchanged, and every
sample at a time index with the indicator true is, per frequency channel,
the pair of the values at that time index of the interpolants built (by the
external routine `itp`, scipy's spline) over the off time indices from the
real parts and, separately, the imaginary parts of that channel. -/
theorem condition_interp_replaces (itp : Itp) (vis : Vis) (m : Mask)
    (ns : List Bool) (hoff : 3 < (offIndices ns).length)
    (hrect : ∀ row ∈ vis, row.length = nchans vis) :
    condition itp false true true vis m (some ns) =
        .ok (.plain (interpOut itp ns vis)) ∧
      (∀ t, t < vis.length → ns.getD t false = false →
        (interpOut itp ns vis).getD t [] = vis.getD t []) ∧
      ∀ t fi, t < vis.length → fi < nchans vis → ns.getD t false = true →
        getEntry (interpOut itp ns vis) t fi =
          ⟨itp (offIndices ns)
              ((offIndices ns).map fun s => (getEntry vis s fi).re) t,
            itp (offIndices ns)
              ((offIndices ns).map fun s => (getEntry vis s fi).im) t⟩ := by
  refine ⟨?_, ?_, ?_⟩
  · show Except.map CondOut.plain (interpVis itp ns vis) =
      Except.ok (CondOut.plain (interpOut itp ns vis))
    rw [interpVis_ok itp ns vis (Or.inr hoff)]
    rfl
  · intro t ht h
    exact interpOut_getD_off itp ns vis t ht h
  · intro t fi ht hfi h
    have hrow : (vis.getD t []).length = nchans vis := by
      rw [getD_eq_elem _ _ ht []]
      exact hrect _ (List.getElem_mem ht)
    unfold getEntry
    rw [interpOut_getD_on itp ns vis t ht h,
      getD_mapIdx _ _ fi (by omega) _ ⟨some 0, some 0⟩,
      getD_range_map _ _ fi hfi]
    rfl

/-- Concrete 10-time, 4-channel visibility array for the C4 scenario. -/
def visTen : Vis :=
  List.replicate 10 (List.replicate 4 (⟨some 1, some 0⟩ : CSample))

/-- The C4 scenario noise indicator [T,F,F,T,F,F,T,F,F,T]. -/
def nsTen : List Bool :=
  [true, false, false, true, false, false, true, false, false, true]

/-- Witness for C4 on the 10×4 scenario (6 off points, 4 on points). -/
theorem condition_interp_replaces_witness :
    (3 < (offIndices nsTen).length) ∧
      (∀ row ∈ visTen, row.length = nchans visTen) ∧
      getEntry (interpOut itpZero nsTen visTen) 0 0 =
        ⟨itpZero (offIndices nsTen)
            ((offIndices nsTen).map fun s => (getEntry visTen s 0).re) 0,
          itpZero (offIndices nsTen)
            ((offIndices nsTen).map fun s => (getEntry visTen s 0).im) 0⟩ :=
  ⟨by decide, by decide,
    (condition_interp_replaces itpZero visTen [] nsTen (by decide)
      (by decide)).2.2 0 0 (by decide) (by decide) (by decide)⟩

/-- C7: noise-flag interpolation is idempotent: when `condition` with
`interpolate=true` succeeds on `vis` with output `out`, running it again on
`out` with the same indicator succeeds and returns `out` again. -/
theorem condition_interp_idempotent (itp : Itp) (vis out : Vis) (m : Mask)
    (ns : List Bool)
    (hok : condition itp false true true vis m (some ns) =
      .ok (.plain out)) :
    condition itp false true true out m (some ns) = .ok (.plain out) := by
  have hv : interpVis itp ns vis = .ok out := by
    have hok' : (interpVis itp ns vis).map CondOut.plain =
        .ok (.plain out) := hok
    cases hiv : interpVis itp ns vis with
    | error e =>
      rw [hiv] at hok'
      exact absurd hok' (by simp [Except.map])
    | ok v =>
      rw [hiv] at hok'
      simp only [Except.map, Except.ok.injEq, CondOut.plain.injEq] at hok'
      rw [hok']
  show Except.map CondOut.plain (interpVis itp ns out) =
    Except.ok (CondOut.plain out)
  rw [interpVis_idem itp ns vis out hv]
  rfl

/-- Concrete 5-time, 1-channel visibility array for the C7 witness. -/
def visFive : Vis :=
  [[⟨some 5, some 6⟩], [⟨some 1, some 1⟩], [⟨some 2, some 2⟩],
    [⟨some 3, some 3⟩], [⟨some 4, some 4⟩]]

/-- Indicator with one on sample and four off samples. -/
def nsFive : List Bool := [true, false, false, false, false]

/-- The output of the first interpolation pass on `visFive`. -/
def outFive : Vis :=
  [[⟨some 0, some 0⟩], [⟨some 1, some 1⟩], [⟨some 2, some 2⟩],
    [⟨some 3, some 3⟩], [⟨some 4, some 4⟩]]

/-- Witness for C7 on the concrete 5×1 array. -/
theorem condition_interp_idempotent_witness :
    (condition itpZero false true true visFive [] (some nsFive) =
        .ok (.plain outFive)) ∧
      condition itpZero false true true outFive [] (some nsFive) =
        .ok (.plain outFive) := by
  have h : condition itpZero false true true visFive [] (some nsFive) =
      .ok (.plain outFive) := by rfl
  exact ⟨h, condition_interp_idempotent itpZero visFive outFive [] nsFive h⟩

/-- C6: the conditioning block never mutates its inputs: in every mode the
state-passing rendering returns exactly the result of `condition` together
with the untouched input visibility and mask buffers. -/
theorem condition_no_mutation (itp : Itp) (fm fn i : Bool) (vis : Vis)
    (m : Mask) (ns : Option (List Bool)) :
    conditionTrace itp fm fn i vis m ns =
      (condition itp fm fn i vis m ns).map fun o => (o, vis, m) := by
  cases fm with
  | true => rfl
  | false =>
    cases fn with
    | false => rfl
    | true =>
      cases ns with
      | none => rfl
      | some l =>
        cases i with
        | false => rfl
        | true =>
          show Except.map (fun v1 => (CondOut.plain v1, vis, m))
              (interpVis itp l vis) =
            Except.map (fun o => (o, vis, m))
              (Except.map CondOut.plain (interpVis itp l vis))
          cases hiv : interpVis itp l vis <;> rfl
